import Mathlib

/-!
Verification development for the chapter-02 ECS roguelike program
(src/chapter-02-ecs/src/main.rs).

The program is embedded shallowly: component stores become association
lists keyed by entity id in insertion order, systems become pure
functions on a `World` record, and the per-frame `tick` becomes a
function from the optional key input and the current world to the next
world together with the list of draw calls emitted to the presentation
surface.  Machine integers (`i32`) are modelled as `Int`: no arithmetic
in the program comes near the `i32` boundaries (all coordinates stay
within the 80x50 grid after each operation).
-/

namespace ECS

/-- A component store: entity-id-keyed association list, insertion order.
Mirrors a specs `Storage`: a sparse mapping from entity id to a value. -/
abbrev Store (T : Type) : Type := List (Nat × T)

/-- Lookup of the component value of entity `e` (first match). -/
def storeGet {T : Type} : Store T → Nat → Option T
  | [], _ => none
  | (k, v) :: rest, e => if k = e then some v else storeGet rest e

/-- Attach or overwrite the component value of entity `e`. -/
def storeInsert {T : Type} : Store T → Nat → T → Store T
  | [], e, v => [(e, v)]
  | (k, u) :: rest, e, v =>
      if k = e then (k, v) :: rest else (k, u) :: storeInsert rest e v

/-- The entity ids carried by a store, in traversal order. -/
def storeKeys {T : Type} (s : Store T) : List Nat :=
  s.map (fun et => et.1)

/-- Update, in place, the component of every entity selected by `mem`;
entities not selected keep their value.  This is the effect of a
write-access join traversal that rewrites the matched components. -/
def mapWhere {T : Type} (mem : Nat → Bool) (f : T → T) (s : Store T) : Store T :=
  s.map (fun et => if mem et.1 then (et.1, f et.2) else et)

/-- Modelled from the spec: the specs-library join (not under src/;
only its call sites are).  "produces, lazily, every entity present in
the intersection of all supplied stores ... no entity appears twice";
"an index-driven iterator over the smallest candidate store, probing
membership in the others".  Here: traverse the first store in order and
probe the second. -/
def join2 {A B : Type} (a : Store A) (b : Store B) : List (Nat × A × B) :=
  a.filterMap (fun ea => (storeGet b ea.1).map (fun vb => (ea.1, ea.2, vb)))

/-- `Position` component: integer coordinates. -/
structure Position where
  x : Int
  y : Int
  deriving DecidableEq, Repr

/-- A color value; rltk's named colors are embedded as their byte
triples (`rltk::YELLOW` etc.). -/
structure RGB where
  r : Nat
  g : Nat
  b : Nat
  deriving DecidableEq, Repr

def YELLOW : RGB := { r := 255, g := 255, b := 0 }

def BLACK : RGB := { r := 0, g := 0, b := 0 }

def RED : RGB := { r := 255, g := 0, b := 0 }

/-- `Renderable` component: a cp437 glyph id plus colors. -/
structure Renderable where
  glyph : Nat
  fg : RGB
  bg : RGB
  deriving DecidableEq, Repr

/-- The world: entity-id allocator plus one store per registered
component type.  `LeftMover` and `Player` are zero-size markers, so
their stores hold `Unit`.  `destroyed` is the registry's list of ids
marked for deferred destruction (empty throughout this program, which
never calls delete). -/
structure World where
  nextId : Nat
  positions : Store Position
  renderables : Store Renderable
  leftMovers : Store Unit
  players : Store Unit
  destroyed : List Nat
  deriving DecidableEq, Repr

/-- `World::new()` followed by the four `register` calls: all stores empty. -/
def World.new : World :=
  { nextId := 0, positions := [], renderables := [], leftMovers := [],
    players := [], destroyed := [] }

/-- Modelled from the spec: `World::maintain` (specs library, not under
src/): "for each marked id, removes its entry from every ComponentStore
and reclaims the id slot". -/
def World.maintain (w : World) : World :=
  { w with
    positions := w.positions.filter (fun et => !(w.destroyed.contains et.1)),
    renderables := w.renderables.filter (fun et => !(w.destroyed.contains et.1)),
    leftMovers := w.leftMovers.filter (fun et => !(w.destroyed.contains et.1)),
    players := w.players.filter (fun et => !(w.destroyed.contains et.1)),
    destroyed := [] }

/-- The body of the LeftWalker loop on one matched position:
`pos.x -= 1; if pos.x < 0 { pos.x = 79 }`. -/
def LeftWalker.step (p : Position) : Position :=
  let x := p.x - 1
  if x < 0 then { x := 79, y := p.y } else { x := x, y := p.y }

/-- `LeftWalker::run`: for every entity in the join of `LeftMover`
(read) and `Position` (write), apply the step. -/
def LeftWalker.run (w : World) : World :=
  { w with
    positions :=
      mapWhere (fun e => (storeGet w.leftMovers e).isSome) LeftWalker.step
        w.positions }

/-- `try_move_player`: for every entity in the join of `Player` and
`Position`, `pos.x = min(79, max(0, pos.x + delta_x))` and
`pos.y = min(49, max(0, pos.y + delta_y))`. -/
def clampMove (dx dy : Int) (p : Position) : Position :=
  { x := min 79 (max 0 (p.x + dx)), y := min 49 (max 0 (p.y + dy)) }

def try_move_player (dx dy : Int) (w : World) : World :=
  { w with
    positions :=
      mapWhere (fun e => (storeGet w.players e).isSome) (clampMove dx dy)
        w.positions }

/-- The key input observed in one tick; `Other` stands for every
`VirtualKeyCode` outside the four directions (the `_` arm). -/
inductive Key where
  | Left
  | Right
  | Up
  | Down
  | Other
  deriving DecidableEq, Repr

/-- `player_input`: match on `ctx.key`. -/
def player_input (key : Option Key) (w : World) : World :=
  match key with
  | none => w
  | some Key.Left => try_move_player (-1) 0 w
  | some Key.Right => try_move_player 1 0 w
  | some Key.Up => try_move_player 0 (-1) w
  | some Key.Down => try_move_player 0 1 w
  | some Key.Other => w

/-- `State::run_systems`: run the one standing system, then maintain. -/
def run_systems (w : World) : World :=
  World.maintain (LeftWalker.run w)

/-- One `ctx.set` call emitted during the render pass. -/
structure DrawCall where
  x : Int
  y : Int
  fg : RGB
  bg : RGB
  glyph : Nat
  deriving DecidableEq, Repr

/-- The render pass of `tick`: join Position and Renderable and emit one
`ctx.set(pos.x, pos.y, render.fg, render.bg, render.glyph)` per match. -/
def render (w : World) : List DrawCall :=
  (join2 w.positions w.renderables).map
    (fun epr =>
      { x := epr.2.1.x, y := epr.2.1.y, fg := epr.2.2.fg, bg := epr.2.2.bg,
        glyph := epr.2.2.glyph })

/-- `State::tick`: clear the screen (external), apply input, run the
systems (which maintain), then the render join over the resulting
world. -/
def tick (key : Option Key) (w : World) : World × List DrawCall :=
  let w1 := player_input key w
  let w2 := run_systems w1
  (w2, render w2)

/-- Entity creation from `main`: the player at (40,25) with
`Position`, `Renderable('@' = cp437 64, YELLOW on BLACK)` and `Player`. -/
def createPlayer (w : World) : World :=
  let e := w.nextId
  { w with
    nextId := e + 1,
    positions := storeInsert w.positions e { x := 40, y := 25 },
    renderables :=
      storeInsert w.renderables e { glyph := 64, fg := YELLOW, bg := BLACK },
    players := storeInsert w.players e () }

/-- Entity creation from `main`'s loop body: a mover at (i*7, 20) with
`Position`, `Renderable(smiley = cp437 1, RED on BLACK)` and `LeftMover`. -/
def createMover (i : Nat) (w : World) : World :=
  let e := w.nextId
  { w with
    nextId := e + 1,
    positions := storeInsert w.positions e { x := (i : Int) * 7, y := 20 },
    renderables :=
      storeInsert w.renderables e { glyph := 1, fg := RED, bg := BLACK },
    leftMovers := storeInsert w.leftMovers e () }

/-- The world `main` hands to the run loop: one player entity, then ten
movers for `i in 0..10`. -/
def initialWorld : World :=
  (List.range 10).foldl (fun w i => createMover i w) (createPlayer World.new)

end ECS

namespace ECS

/-! ## Store and join lemmas -/

theorem storeGet_mapWhere {T : Type} (mem : Nat → Bool) (f : T → T)
    (s : Store T) (e : Nat) :
    storeGet (mapWhere mem f s) e =
      (storeGet s e).map (fun v => if mem e then f v else v) := by
  induction s with
  | nil => rfl
  | cons hd tl ih =>
      rcases hd with ⟨k, v⟩
      have hhead :
          (if mem k then ((k, f v) : Nat × T) else (k, v)) =
            (k, if mem k then f v else v) := by
        cases mem k <;> simp
      simp only [mapWhere, List.map_cons] at ih ⊢
      rw [hhead]
      by_cases he : k = e
      · subst he
        simp [storeGet]
      · simp only [storeGet, if_neg he]
        exact ih

theorem storeGet_isSome_iff {T : Type} (s : Store T) (e : Nat) :
    (storeGet s e).isSome = true ↔ ∃ v, (e, v) ∈ s := by
  induction s with
  | nil => simp [storeGet]
  | cons hd tl ih =>
      rcases hd with ⟨k, v⟩
      by_cases he : k = e
      · subst he
        simp [storeGet]
      · simp [storeGet, he, ih, Ne.symm he]

theorem join2_map_fst {A B : Type} (a : Store A) (b : Store B) :
    (join2 a b).map (fun x => x.1) =
      ((a.filter (fun ea => (storeGet b ea.1).isSome)).map (fun ea => ea.1)) := by
  induction a with
  | nil => rfl
  | cons hd tl ih =>
      rcases hd with ⟨k, v⟩
      rcases hb : storeGet b k with _ | vb <;>
        simp [join2, List.filterMap, hb, List.filter] at * <;>
        simpa [join2] using ih

theorem mem_mapWhere {T : Type} (mem : Nat → Bool) (f : T → T)
    (s : Store T) (x : Nat × T) (hx : x ∈ mapWhere mem f s) :
    ∃ y ∈ s, x = if mem y.1 then (y.1, f y.2) else y := by
  rcases List.mem_map.mp hx with ⟨y, hy, hxy⟩
  exact ⟨y, hy, hxy.symm⟩

theorem mem_join2 {A B : Type} (a : Store A) (b : Store B)
    (x : Nat × A × B) (hx : x ∈ join2 a b) :
    (x.1, x.2.1) ∈ a ∧ storeGet b x.1 = some x.2.2 := by
  rcases List.mem_filterMap.mp hx with ⟨ea, hea, hmap⟩
  rcases hb : storeGet b ea.1 with _ | vb
  · simp [hb] at hmap
  · simp [hb] at hmap
    subst hmap
    exact ⟨hea, hb⟩

end ECS

namespace ECS

/-! ## Claim theorems -/

/-- Claim C1: for every entity that has both `LeftMover` and `Position`,
one run of the LeftWalker system replaces `x` by `x - 1`, and if that
result is negative it instead sets `x = 79`; in particular `x = 0`
becomes `x = 79` and `x = k > 0` becomes `k - 1`; `y` is never changed. -/
theorem LeftWalker_run_moves_left (w : World) (e : Nat) (p : Position)
    (hl : storeGet w.leftMovers e = some ())
    (hp : storeGet w.positions e = some p) :
    storeGet (LeftWalker.run w).positions e =
      some { x := if p.x - 1 < 0 then 79 else p.x - 1, y := p.y }
    ∧ (p.x = 0 →
        storeGet (LeftWalker.run w).positions e = some { x := 79, y := p.y })
    ∧ (0 < p.x →
        storeGet (LeftWalker.run w).positions e =
          some { x := p.x - 1, y := p.y }) := by
  have hmem : (storeGet w.leftMovers e).isSome = true := by rw [hl]; rfl
  have h1 : storeGet (LeftWalker.run w).positions e =
      some (LeftWalker.step p) := by
    simp [LeftWalker.run, storeGet_mapWhere, hp, hmem]
  have hstep : LeftWalker.step p =
      { x := if p.x - 1 < 0 then 79 else p.x - 1, y := p.y } := by
    by_cases hlt : p.x - 1 < 0 <;> simp [LeftWalker.step, hlt]
  refine ⟨by rw [h1, hstep], ?_, ?_⟩
  · intro h0
    rw [h1, hstep]
    have : p.x - 1 < 0 := by omega
    simp [this]
  · intro hpos
    rw [h1, hstep]
    have : ¬(p.x - 1 < 0) := by omega
    simp [this]

/-- Witness for C1: in the initial world, entity 1 is a LeftMover at
(0, 20); one LeftWalker run wraps it to x = 79, y unchanged. -/
theorem LeftWalker_run_moves_left_witness :
    storeGet (LeftWalker.run initialWorld).positions 1 =
      some { x := 79, y := 20 } :=
  (LeftWalker_run_moves_left initialWorld 1 { x := 0, y := 20 }
    (by decide) (by decide)).2.1 rfl

/-- Claim C2: for every entity with `Player` and `Position` and every
delta `(dx, dy)`, `try_move_player` sets `x` to `min 79 (max 0 (x + dx))`
and `y` to `min 49 (max 0 (y + dy))` (i.e. clamps to the 80x50 grid). -/
theorem try_move_player_clamps (dx dy : Int) (w : World) (e : Nat)
    (p : Position)
    (hpl : storeGet w.players e = some ())
    (hp : storeGet w.positions e = some p) :
    storeGet (try_move_player dx dy w).positions e =
      some { x := min 79 (max 0 (p.x + dx)),
             y := min 49 (max 0 (p.y + dy)) } := by
  have hmem : (storeGet w.players e).isSome = true := by rw [hpl]; rfl
  simp [try_move_player, storeGet_mapWhere, hp, hmem, clampMove]

/-- A two-player world sitting at the horizontal extremes, used to
exercise the clamp at both grid borders. -/
def cornerWorld : World :=
  { nextId := 2,
    positions := [(0, { x := 0, y := 25 }), (1, { x := 79, y := 25 })],
    renderables := [],
    leftMovers := [],
    players := [(0, ()), (1, ())],
    destroyed := [] }

/-- Witness for C2: from (0,25) with delta (-1,0) x stays 0; from
(79,25) with delta (1,0) x stays 79. -/
theorem try_move_player_clamps_witness :
    storeGet (try_move_player (-1) 0 cornerWorld).positions 0 =
      some { x := 0, y := 25 }
    ∧ storeGet (try_move_player 1 0 cornerWorld).positions 1 =
      some { x := 79, y := 25 } := by
  constructor
  · rw [try_move_player_clamps (-1) 0 cornerWorld 0 { x := 0, y := 25 }
      (by decide) (by decide)]
    decide
  · rw [try_move_player_clamps 1 0 cornerWorld 1 { x := 79, y := 25 }
      (by decide) (by decide)]
    decide

/-- Claim C3: every tick performs, in this exact order with no sub-step
skipped or reordered: input application, the standing systems in fixed
order (here the single LeftWalker), `World.maintain`, then the render
join — and the render join reads the post-maintain world. -/
theorem tick_phase_order (key : Option Key) (w : World) :
    tick key w =
      (World.maintain (LeftWalker.run (player_input key w)),
       render (World.maintain (LeftWalker.run (player_input key w)))) :=
  rfl

/-- Claim C7: when the per-tick input is absent (`none`) or is a key
outside the four directions (`Other`, the wildcard arm), the
input-application phase changes no component of any entity. -/
theorem player_input_non_directional_noop (w : World) :
    player_input none w = w ∧ player_input (some Key.Other) w = w :=
  ⟨rfl, rfl⟩

end ECS

namespace ECS

/-- Claim C4: joining two component stores yields exactly the set of
entities present in both stores, and no entity appears twice in one
traversal (given the store keys are duplicate-free, as entity-id-keyed
stores are). -/
theorem join2_exact_intersection {A B : Type} (a : Store A) (b : Store B)
    (hnd : (storeKeys a).Nodup) :
    (∀ e : Nat,
        e ∈ (join2 a b).map (fun x => x.1) ↔
          ((storeGet a e).isSome = true ∧ (storeGet b e).isSome = true))
    ∧ ((join2 a b).map (fun x => x.1)).Nodup := by
  constructor
  · intro e
    rw [join2_map_fst]
    constructor
    · intro he
      rcases List.mem_map.mp he with ⟨ea, hea, rfl⟩
      have hf := List.mem_filter.mp hea
      refine ⟨(storeGet_isSome_iff a ea.1).mpr ⟨ea.2, ?_⟩, hf.2⟩
      simpa using hf.1
    · rintro ⟨ha, hb⟩
      rcases (storeGet_isSome_iff a e).mp ha with ⟨v, hv⟩
      exact List.mem_map.mpr
        ⟨(e, v), List.mem_filter.mpr ⟨hv, by simpa using hb⟩, rfl⟩
  · rw [join2_map_fst]
    have hsub := (List.filter_sublist
      (p := fun ea => (storeGet b ea.1).isSome) a).map (fun ea => ea.1)
    exact List.Nodup.sublist hsub hnd

/-- Witness for C4: on the initial world's Position and Renderable
stores, entity 5 is in the join exactly because it is in both stores,
and the join's entity list is duplicate-free. -/
theorem join2_exact_intersection_witness :
    (5 ∈ (join2 initialWorld.positions initialWorld.renderables).map
        (fun x => x.1) ↔
      ((storeGet initialWorld.positions 5).isSome = true ∧
       (storeGet initialWorld.renderables 5).isSome = true))
    ∧ ((join2 initialWorld.positions initialWorld.renderables).map
        (fun x => x.1)).Nodup := by
  have h := join2_exact_intersection initialWorld.positions
    initialWorld.renderables (by decide)
  exact ⟨h.1 5, h.2⟩

/-- Claim C5: from the program's initial world, one tick with input
`none` decreases each LeftMover's x by 1 (0 wrapping to 79), leaves the
player at (40,25), and the render join emits exactly 11 draw calls,
each at the entity's post-tick position. -/
theorem tick_none_initial :
    (tick none initialWorld).1.positions =
      [(0, { x := 40, y := 25 }),
       (1, { x := 79, y := 20 }), (2, { x := 6, y := 20 }),
       (3, { x := 13, y := 20 }), (4, { x := 20, y := 20 }),
       (5, { x := 27, y := 20 }), (6, { x := 34, y := 20 }),
       (7, { x := 41, y := 20 }), (8, { x := 48, y := 20 }),
       (9, { x := 55, y := 20 }), (10, { x := 62, y := 20 })]
    ∧ (tick none initialWorld).2 =
      [{ x := 40, y := 25, fg := YELLOW, bg := BLACK, glyph := 64 },
       { x := 79, y := 20, fg := RED, bg := BLACK, glyph := 1 },
       { x := 6, y := 20, fg := RED, bg := BLACK, glyph := 1 },
       { x := 13, y := 20, fg := RED, bg := BLACK, glyph := 1 },
       { x := 20, y := 20, fg := RED, bg := BLACK, glyph := 1 },
       { x := 27, y := 20, fg := RED, bg := BLACK, glyph := 1 },
       { x := 34, y := 20, fg := RED, bg := BLACK, glyph := 1 },
       { x := 41, y := 20, fg := RED, bg := BLACK, glyph := 1 },
       { x := 48, y := 20, fg := RED, bg := BLACK, glyph := 1 },
       { x := 55, y := 20, fg := RED, bg := BLACK, glyph := 1 },
       { x := 62, y := 20, fg := RED, bg := BLACK, glyph := 1 }]
    ∧ (tick none initialWorld).2.length = 11 := by
  decide

/-- Claim C6: from the program's initial world, one tick with input
`Left` moves the player from (40,25) to (39,25), and every LeftMover
entity still moves by its own rule in the same tick (same mover
positions as the no-input tick). -/
theorem tick_left_initial :
    storeGet (tick (some Key.Left) initialWorld).1.positions 0 =
      some { x := 39, y := 25 }
    ∧ (tick (some Key.Left) initialWorld).1.positions =
      [(0, { x := 39, y := 25 }),
       (1, { x := 79, y := 20 }), (2, { x := 6, y := 20 }),
       (3, { x := 13, y := 20 }), (4, { x := 20, y := 20 }),
       (5, { x := 27, y := 20 }), (6, { x := 34, y := 20 }),
       (7, { x := 41, y := 20 }), (8, { x := 48, y := 20 }),
       (9, { x := 55, y := 20 }), (10, { x := 62, y := 20 })]
    ∧ ((tick (some Key.Left) initialWorld).1.positions.tail =
        (tick none initialWorld).1.positions.tail) := by
  decide

end ECS

namespace ECS

/-- Claim C8: the tick transition is deterministic — equal starting
worlds with the same per-tick input give equal resulting worlds and the
identical draw-call sequence (same entities, same order). -/
theorem tick_deterministic (key : Option Key) (w v : World) (h : w = v) :
    tick key w = tick key v ∧ (tick key w).2 = (tick key v).2 := by
  subst h
  exact ⟨rfl, rfl⟩

/-- Witness for C8: two runs on the initial world with no input agree. -/
theorem tick_deterministic_witness :
    tick none initialWorld = tick none initialWorld ∧
    (tick none initialWorld).2 = (tick none initialWorld).2 :=
  tick_deterministic none initialWorld initialWorld rfl

/-- A position lies inside the fixed 80x50 grid. -/
def inBounds (p : Position) : Prop :=
  0 ≤ p.x ∧ p.x ≤ 79 ∧ 0 ≤ p.y ∧ p.y ≤ 49

instance (p : Position) : Decidable (inBounds p) := by
  unfold inBounds
  infer_instance

theorem clampMove_inBounds (dx dy : Int) (p : Position) :
    inBounds (clampMove dx dy p) := by
  unfold inBounds clampMove
  dsimp
  omega

theorem step_inBounds (p : Position) (h : inBounds p) :
    inBounds (LeftWalker.step p) := by
  unfold inBounds at *
  by_cases hlt : p.x - 1 < 0 <;> simp [LeftWalker.step, hlt] <;> omega

theorem try_move_player_inBounds (dx dy : Int) (w : World)
    (h : ∀ ep ∈ w.positions, inBounds ep.2) :
    ∀ ep ∈ (try_move_player dx dy w).positions, inBounds ep.2 := by
  intro ep hep
  have hep' : ep ∈ mapWhere (fun e => (storeGet w.players e).isSome)
      (clampMove dx dy) w.positions := hep
  rcases mem_mapWhere _ _ _ _ hep' with ⟨y, hy, hx⟩
  by_cases hm : (storeGet w.players y.1).isSome
  · rw [hx]
    simp only [hm, if_true]
    exact clampMove_inBounds dx dy y.2
  · rw [hx]
    simp only [Bool.not_eq_true] at hm
    simp only [hm, Bool.false_eq_true, if_false]
    exact h y hy

/-- Claim C9: if every Position is inside the 80x50 grid before a tick,
it still is after the tick, every draw call of the tick's render pass
targets a cell inside the grid, and the program's initial entities
satisfy the invariant. -/
theorem tick_preserves_inBounds (key : Option Key) (w : World)
    (h : ∀ ep ∈ w.positions, inBounds ep.2) :
    (∀ ep ∈ (tick key w).1.positions, inBounds ep.2)
    ∧ (∀ d ∈ (tick key w).2, 0 ≤ d.x ∧ d.x ≤ 79 ∧ 0 ≤ d.y ∧ d.y ≤ 49)
    ∧ (∀ ep ∈ initialWorld.positions, inBounds ep.2) := by
  have h1 : ∀ ep ∈ (player_input key w).positions, inBounds ep.2 := by
    cases key with
    | none => exact h
    | some k =>
        cases k with
        | Left => exact try_move_player_inBounds (-1) 0 w h
        | Right => exact try_move_player_inBounds 1 0 w h
        | Up => exact try_move_player_inBounds 0 (-1) w h
        | Down => exact try_move_player_inBounds 0 1 w h
        | Other => exact h
  have h2 : ∀ ep ∈ (LeftWalker.run (player_input key w)).positions,
      inBounds ep.2 := by
    intro ep hep
    have hep' : ep ∈ mapWhere
        (fun e => (storeGet (player_input key w).leftMovers e).isSome)
        LeftWalker.step (player_input key w).positions := hep
    rcases mem_mapWhere _ _ _ _ hep' with ⟨y, hy, hx⟩
    by_cases hm : (storeGet (player_input key w).leftMovers y.1).isSome
    · rw [hx]
      simp only [hm, if_true]
      exact step_inBounds y.2 (h1 y hy)
    · rw [hx]
      simp only [Bool.not_eq_true] at hm
      simp only [hm, Bool.false_eq_true, if_false]
      exact h1 y hy
  have htick1 : (tick key w).1 =
      World.maintain (LeftWalker.run (player_input key w)) := rfl
  have h3 : ∀ ep ∈ (tick key w).1.positions, inBounds ep.2 := by
    intro ep hep
    rw [htick1] at hep
    exact h2 ep (List.mem_of_mem_filter hep)
  refine ⟨h3, ?_, by decide⟩
  intro d hd
  have htick2 : (tick key w).2 =
      render (World.maintain (LeftWalker.run (player_input key w))) := rfl
  rw [htick2] at hd
  unfold render at hd
  rcases List.mem_map.mp hd with ⟨epr, hepr, rfl⟩
  have hmem := (mem_join2 _ _ _ hepr).1
  have hb : inBounds epr.2.1 := by
    have : ((epr.1, epr.2.1) : Nat × Position) ∈ (tick key w).1.positions := by
      rw [htick1]
      exact hmem
    exact h3 (epr.1, epr.2.1) this
  exact ⟨hb.1, hb.2.1, hb.2.2.1, hb.2.2.2⟩

/-- Witness for C9: the initial world satisfies the invariant and one
no-input tick keeps every position and draw call inside the grid. -/
theorem tick_preserves_inBounds_witness :
    (∀ ep ∈ (tick none initialWorld).1.positions, inBounds ep.2)
    ∧ (∀ d ∈ (tick none initialWorld).2,
        0 ≤ d.x ∧ d.x ≤ 79 ∧ 0 ≤ d.y ∧ d.y ≤ 49) := by
  have h := tick_preserves_inBounds none initialWorld (by decide)
  exact ⟨h.1, h.2.1⟩

/-- Claim C10: `try_move_player` applies the clamped move to every
entity that has both Player and Position, not only a unique one: with
zero such entities it changes nothing, and with several, all of them
move by the same delta, each clamped independently. -/
theorem try_move_player_every_player (dx dy : Int) (w : World) :
    ((∀ ep ∈ w.positions, storeGet w.players ep.1 = none) →
      try_move_player dx dy w = w)
    ∧ (∀ e p, storeGet w.players e = some () →
        storeGet w.positions e = some p →
        storeGet (try_move_player dx dy w).positions e =
          some (clampMove dx dy p)) := by
  constructor
  · intro hnone
    unfold try_move_player
    have hid : ∀ et ∈ w.positions,
        (if (storeGet w.players et.1).isSome
          then (et.1, clampMove dx dy et.2) else et) = et := by
      intro et het
      rw [hnone et het]
      simp
    have : mapWhere (fun e => (storeGet w.players e).isSome)
        (clampMove dx dy) w.positions = w.positions := by
      unfold mapWhere
      exact (List.map_congr_left hid).trans (List.map_id _)
    rw [this]
  · intro e p hpl hp
    have hmem : (storeGet w.players e).isSome = true := by rw [hpl]; rfl
    simp [try_move_player, storeGet_mapWhere, hp, hmem]

/-- A world holding one positioned entity and no Player marker at all. -/
def noPlayerWorld : World :=
  { nextId := 1,
    positions := [(0, { x := 5, y := 5 })],
    renderables := [],
    leftMovers := [],
    players := [],
    destroyed := [] }

/-- Witness for C10: with no Player entity the move is a no-op; in the
two-player world both players move, each clamped independently. -/
theorem try_move_player_every_player_witness :
    try_move_player 1 0 noPlayerWorld = noPlayerWorld
    ∧ storeGet (try_move_player 1 0 cornerWorld).positions 0 =
        some (clampMove 1 0 { x := 0, y := 25 })
    ∧ storeGet (try_move_player 1 0 cornerWorld).positions 1 =
        some (clampMove 1 0 { x := 79, y := 25 }) :=
  ⟨(try_move_player_every_player 1 0 noPlayerWorld).1 (by decide),
   (try_move_player_every_player 1 0 cornerWorld).2 0 { x := 0, y := 25 }
     (by decide) (by decide),
   (try_move_player_every_player 1 0 cornerWorld).2 1 { x := 79, y := 25 }
     (by decide) (by decide)⟩

end ECS
